import Mathlib

/-!
Shallow embedding of the bindit two-way data binding engine:
the `BindingStore` core (state tree, transform/validate pipeline,
subscriptions) and the `useBind` input-adapter event handlers from the
react package, together with proofs of the spec's testable properties.

Modelling conventions:
* Values stored in the state tree are `JVal A`: `undefined` for
  `undefined` and for absent slots, `atom` for primitive leaves
  (numbers, strings, booleans, null), `obj` for plain objects as
  ordered association lists.  Built-in properties of primitives
  (e.g. `.length`) and prototype-chain inheritance are not modelled;
  no property proved here depends on them.
* User-supplied transforms and validators may throw, so they are
  modelled as `JVal A → Except JsErr _`; a `.error` result is a thrown
  exception propagating out of the store call.
* The package is ES-module (strict-mode) code: assigning a property on
  a primitive, or applying `in` to one, throws a TypeError.
  `setNested` returns `none` exactly in those situations.  (The
  partially created intermediate objects that the real code leaves
  behind before such a throw are not observable by any property proved
  here and are not modelled.)
* The observable side effects of a `setValue` call are recorded as a
  trace of `Event`s in program order: transform call, validator call,
  commit into the tree, then one notification per subscriber of the
  path, in subscriber-set insertion order.
* The two `Map`s held by the store (`configs`, `subscribers`) are never
  iterated by the code, so they are modelled as functions from paths.
  A missing subscriber-set entry and an empty subscriber set are
  observationally identical (both produce zero notifications), so the
  subscriber map returns a plain list with `[]` for absent.
-/

/-- Result of a `BindingValidator`: JavaScript `boolean | string`. -/
inductive VResult where
  | bool : Bool → VResult
  | msg : String → VResult
deriving DecidableEq, Repr

/-- Exceptions that can escape a store operation: a throw from a
user-supplied transform/validator, or a strict-mode TypeError raised by
`setNestedValue` when a path segment runs into a primitive. -/
inductive JsErr where
  | thrown : String → JsErr
  | typeError : JsErr
deriving DecidableEq, Repr

/-- A JavaScript value as seen by the state tree: `undefined` for
`undefined`/absent, `atom` for any primitive leaf, `obj` for a plain
object (ordered association list of own properties). -/
inductive JVal (A : Type) where
  | undefined : JVal A
  | atom : A → JVal A
  | obj : List (String × JVal A) → JVal A

/-- Validation-timing modes of `BindingConfig.validationTiming`. -/
inductive VTiming where
  | onTouch | onSubmit | onChange
deriving DecidableEq, Repr

/-- Model of `BindingConfig<T>` from the core (src/unnamed/part_001 lines 15-21). -/
structure Config (A : Type) where
  transform : Option (JVal A → Except JsErr (JVal A)) := none
  validate : Option (JVal A → Except JsErr VResult) := none
  debounce : Option Nat := none
  immediate : Option Bool := none
  validationTiming : Option VTiming := none

/-- One observable side effect of a store write, in program order. -/
inductive Event (A : Type) where
  | callTransform : String → JVal A → Event A
  | callValidator : String → JVal A → Event A
  | commit : String → JVal A → Event A
  | notify : Nat → JVal A → String → Event A

/-- Property lookup on an object's own-property list (first match). -/
def lookupField {A : Type} : List (String × JVal A) → String → Option (JVal A)
  | [], _ => none
  | (k, v) :: fs, key => if k = key then some v else lookupField fs key

/-- Property write on an object's own-property list: replace in place if
present, else append (JavaScript object insertion-order semantics). -/
def setField {A : Type} : List (String × JVal A) → String → JVal A → List (String × JVal A)
  | [], key, v => [(key, v)]
  | (k, w) :: fs, key, v =>
      if k = key then (key, v) :: fs else (k, w) :: setField fs key v

/-- Model of `getNestedValue` (part_001 lines 169-171): fold
`(current, key) => current?.[key]` over the split path.  Optional
chaining yields `undefined` on `null`/`undefined`, and plain property
access on a primitive also yields `undefined` for the properties that
matter here. -/
def getNested {A : Type} : JVal A → List String → JVal A
  | v, [] => v
  | .obj fs, k :: ks => getNested ((lookupField fs k).getD .undefined) ks
  | _, _ :: _ => .undefined

/-- Model of `setNestedValue` (part_001 lines 173-184): walk the intermediate
keys, creating empty objects for absent ones; descending into (or
finally assigning onto) a primitive or `undefined` throws a strict-mode
TypeError, modelled as `none`. -/
def setNested {A : Type} : JVal A → List String → JVal A → Option (JVal A)
  | .obj fs, [k], v => some (.obj (setField fs k v))
  | .obj fs, k :: k2 :: ks, v =>
      ((setNested ((lookupField fs k).getD (.obj [])) (k2 :: ks) v).map
        fun sub => .obj (setField fs k sub))
  | _, _, _ => none

/-- Character-level split on `'.'`, structurally recursive so that the
kernel can evaluate it on literals.  `acc` holds the current segment's
characters in reverse. -/
def splitDotAux : List Char → List Char → List String
  | [], acc => [String.mk acc.reverse]
  | c :: cs, acc =>
      if c = '.' then String.mk acc.reverse :: splitDotAux cs []
      else splitDotAux cs (c :: acc)

/-- Path splitting: JavaScript `path.split('.')` with the one-character
separator, which never returns an empty list (`""` splits to `[""]`). -/
def splitPath (p : String) : List String := splitDotAux p.data []

/-- The `BindingStore` (part_001 lines 36-192): state tree plus the two
path-keyed maps.  `subscribers p` is the insertion-ordered element list
of the `Set` registered for `p` (`[]` when absent). -/
structure Store (A : Type) where
  state : JVal A
  subscribers : String → List Nat
  configs : String → Option (Config A)

/-- Pointwise update of a path-keyed map. -/
def fupdate {B : Type} (m : String → B) (k : String) (v : B) : String → B :=
  fun k' => if k' = k then v else m k'

/-- The transform registered for a path, `config?.transform`. -/
def transformAt {A : Type} (st : Store A) (path : String) :
    Option (JVal A → Except JsErr (JVal A)) :=
  (st.configs path).bind Config.transform

/-- The validator registered for a path, `config?.validate`. -/
def validateAt {A : Type} (st : Store A) (path : String) :
    Option (JVal A → Except JsErr VResult) :=
  (st.configs path).bind Config.validate

/-- Subscriber set of a path (insertion order). -/
def subsAt {A : Type} (st : Store A) (path : String) : List Nat :=
  st.subscribers path

/-- Model of `getValue` (part_001 lines 102-104). -/
def getValue {A : Type} (st : Store A) (path : String) : JVal A :=
  getNested st.state (splitPath path)

/-- The tail of `setValue`: `setNestedValue` followed by
`notifySubscribers` (part_001 lines 123-124 and 129-130; both the
invalid and the valid branch run exactly these two statements). -/
def commitAndNotify {A : Type} (st : Store A) (path : String) (pv : JVal A)
    (tr0 : List (Event A)) : Except JsErr (Store A × List (Event A)) :=
  match setNested st.state (splitPath path) pv with
  | none => .error .typeError
  | some t' =>
      .ok ({ st with state := t' },
        tr0 ++ [Event.commit path pv] ++
          (subsAt st path).map fun cb => Event.notify cb pv path)

/-- Model of `setValue` after the transform step (part_001 lines 118-131): run
the validator if configured; whether or not the result is `true`, the
value is committed and subscribers are notified identically. -/
def setValueAfterTransform {A : Type} (st : Store A) (path : String) (pv : JVal A)
    (tr0 : List (Event A)) : Except JsErr (Store A × List (Event A)) :=
  match validateAt st path with
  | some f =>
      match f pv with
      | .error e => .error e
      | .ok result =>
          if result ≠ VResult.bool true then
            -- "Still set the value but mark as invalid"
            commitAndNotify st path pv (tr0 ++ [Event.callValidator path pv])
          else
            commitAndNotify st path pv (tr0 ++ [Event.callValidator path pv])
  | none => commitAndNotify st path pv tr0

/-- Model of `setValue` (part_001 lines 109-131): look up the config, apply the
transform if configured, then validate/commit/notify. -/
def setValue {A : Type} (st : Store A) (path : String) (v : JVal A) :
    Except JsErr (Store A × List (Event A)) :=
  match transformAt st path with
  | some t =>
      match t v with
      | .error e => .error e
      | .ok processedValue =>
          setValueAfterTransform st path processedValue [Event.callTransform path v]
  | none => setValueAfterTransform st path v []

/-- Model of `subscribe` (part_001 lines 136-151): add the callback to the
path's set (a `Set.add` of an already-present member is a no-op). -/
def subscribeS {A : Type} (st : Store A) (path : String) (cb : Nat) : Store A :=
  let cur := st.subscribers path
  if cb ∈ cur then st
  else { st with subscribers := fupdate st.subscribers path (cur ++ [cb]) }

/-- The unsubscribe closure returned by `subscribe` (part_001 lines
145-150): delete the callback from the set it was added to.  The
source also deletes the `Map` entry when the set becomes empty; with
absent entries modelled as `[]`, deleting the entry and storing `[]`
coincide. -/
def unsubscribeS {A : Type} (st : Store A) (path : String) (cb : Nat) : Store A :=
  { st with
    subscribers := fupdate st.subscribers path
      ((st.subscribers path).filter fun c => c ≠ cb) }

/-- Model of the `Binding` view object as produced by `bind` (part_001 lines 48-97):
it captures the path and the config passed to `bind`. -/
structure BindingR (A : Type) where
  path : String
  config : Config A

/-- Model of `bind` (part_001 lines 48-97): register the config for the path and
return the view object. -/
def bindB {A : Type} (st : Store A) (path : String) (cfg : Config A) :
    Store A × BindingR A :=
  ({ st with configs := fupdate st.configs path (some cfg) }, ⟨path, cfg⟩)

/-- The `isValid` getter (part_001 lines 60-67): read the value, then
run the binding's own validator; `true` when none is configured, else
`result === true`. -/
def isValidB {A : Type} (st : Store A) (b : BindingR A) : Except JsErr Bool :=
  let value := getValue st b.path
  match b.config.validate with
  | none => .ok true
  | some f => (f value).map fun r => r = VResult.bool true

/-- The `error` getter (part_001 lines 69-76): the validator's message
when it returns a string, else `undefined`. -/
def errorB {A : Type} (st : Store A) (b : BindingR A) : Except JsErr (Option String) :=
  let value := getValue st b.path
  match b.config.validate with
  | none => .ok none
  | some f =>
      (f value).map fun r => match r with | .msg s => some s | .bool _ => none

/-- The `transformedConfig` built by `Binding.transform` (part_001
lines 88-93): its transform is the given function alone (the parent's
transform is not consulted), `debounce`/`immediate`/`validationTiming`
are carried over, and no validator is set. -/
def transformedConfig {A : Type} (b : BindingR A)
    (f : JVal A → Except JsErr (JVal A)) : Config A :=
  { transform := some fun val => f val
    debounce := b.config.debounce
    immediate := b.config.immediate
    validationTiming := b.config.validationTiming }

/-- Model of `Binding.transform` (part_001 lines 86-95): bind the transformed
config at the derived path `path + "_transformed"`. -/
def transformB {A : Type} (st : Store A) (b : BindingR A)
    (f : JVal A → Except JsErr (JVal A)) : Store A × BindingR A :=
  bindB st (b.path ++ "_transformed") (transformedConfig b f)

/-- Model of `batch` (part_001 lines 163-167): the body only runs the callback
(the TODO to defer notifications is unimplemented). -/
def batch {A : Type} (st : Store A)
    (updates : Store A → Except JsErr (Store A × List (Event A))) :
    Except JsErr (Store A × List (Event A)) :=
  updates st

/-- Sequencing a list of writes directly (no batching), concatenating
their event traces; used to describe what a batch callback does. -/
def runWrites {A : Type} : List (String × JVal A) → Store A →
    Except JsErr (Store A × List (Event A))
  | [], st => .ok (st, [])
  | (p, v) :: rest, st =>
      match setValue st p v with
      | .error e => .error e
      | .ok (st1, tr1) =>
          match runWrites rest st1 with
          | .error e => .error e
          | .ok (st2, tr2) => .ok (st2, tr1 ++ tr2)

-- ### Derived helpers used only in statements

/-- The processed value a write will commit: `transform(value)` when a
transform is configured, the raw value otherwise (part_001 110-116). -/
def processedValue {A : Type} (st : Store A) (path : String) (v : JVal A) :
    Except JsErr (JVal A) :=
  match transformAt st path with
  | some t => t v
  | none => .ok v

/-- Trace prefix contributed by the transform step. -/
def transformTrace {A : Type} (st : Store A) (path : String) (v : JVal A) :
    List (Event A) :=
  match transformAt st path with
  | some _ => [Event.callTransform path v]
  | none => []

def Event.isTransformCall {A : Type} : Event A → Bool
  | .callTransform _ _ => true
  | _ => false

def Event.isValidatorCall {A : Type} : Event A → Bool
  | .callValidator _ _ => true
  | _ => false

def Event.isNotify {A : Type} : Event A → Bool
  | .notify _ _ _ => true
  | _ => false

def Event.isNotifyTo {A : Type} (s : Nat) : Event A → Bool
  | .notify c _ _ => c == s
  | _ => false

def countTransformCalls {A : Type} (tr : List (Event A)) : Nat :=
  (tr.filter Event.isTransformCall).length

def countValidatorCalls {A : Type} (tr : List (Event A)) : Nat :=
  (tr.filter Event.isValidatorCall).length

def countNotifyTo {A : Type} (s : Nat) (tr : List (Event A)) : Nat :=
  (tr.filter (Event.isNotifyTo s)).length

-- ### Basic lemmas about the embedded primitives

theorem lookupField_setField {A : Type} (fs : List (String × JVal A)) (k : String)
    (v : JVal A) : lookupField (setField fs k v) k = some v := by
  induction fs with
  | nil => simp [setField, lookupField]
  | cons p fs ih =>
      obtain ⟨k', w⟩ := p
      by_cases h : k' = k
      · simp [setField, h, lookupField]
      · simp [setField, h, lookupField, ih]

/-- Reading back a successfully written path yields exactly the written
value: the round-trip property of `setNestedValue`/`getNestedValue`. -/
theorem getNested_setNested {A : Type} (ks : List String) (t t' v : JVal A)
    (h : setNested t ks v = some t') : getNested t' ks = v := by
  induction ks generalizing t t' with
  | nil => cases t <;> simp [setNested] at h
  | cons k ks ih =>
      cases ks with
      | nil =>
          cases t <;> simp [setNested] at h
          subst h
          simp [getNested, lookupField_setField]
      | cons k2 ks2 =>
          cases t <;> simp [setNested] at h
          obtain ⟨sub, hsub, rfl⟩ := h
          simp [getNested, lookupField_setField]
          exact ih _ _ hsub

theorem fupdate_self {B : Type} (m : String → B) (k : String) (v : B) :
    fupdate m k v k = v := by simp [fupdate]

-- ### Characterization of a successful write

theorem commitAndNotify_ok {A : Type} {st : Store A} {path : String} {pv : JVal A}
    {tr0 : List (Event A)} {st' : Store A} {tr : List (Event A)}
    (h : commitAndNotify st path pv tr0 = .ok (st', tr)) :
    ∃ t', setNested st.state (splitPath path) pv = some t' ∧
      st' = { st with state := t' } ∧
      tr = tr0 ++ [Event.commit path pv] ++
        (subsAt st path).map fun cb => Event.notify cb pv path := by
  unfold commitAndNotify at h
  cases hset : setNested st.state (splitPath path) pv with
  | none => rw [hset] at h; exact absurd h (by simp)
  | some t' =>
      rw [hset] at h
      refine ⟨t', rfl, ?_, ?_⟩ <;> cases h <;> rfl

theorem setValueAfterTransform_ok {A : Type} {st : Store A} {path : String}
    {pv : JVal A} {tr0 : List (Event A)} {st' : Store A} {tr : List (Event A)}
    (h : setValueAfterTransform st path pv tr0 = .ok (st', tr)) :
    ∃ t', setNested st.state (splitPath path) pv = some t' ∧
      st' = { st with state := t' } ∧
      ((validateAt st path = none ∧
          tr = tr0 ++ [Event.commit path pv] ++
            ((subsAt st path).map fun cb => Event.notify cb pv path)) ∨
        (∃ f r, validateAt st path = some f ∧ f pv = .ok r ∧
          tr = tr0 ++ [Event.callValidator path pv] ++ [Event.commit path pv] ++
            ((subsAt st path).map fun cb => Event.notify cb pv path))) := by
  unfold setValueAfterTransform at h
  cases hval : validateAt st path with
  | none =>
      rw [hval] at h
      obtain ⟨t', hset, hst, htr⟩ := commitAndNotify_ok h
      exact ⟨t', hset, hst, Or.inl ⟨rfl, htr⟩⟩
  | some f =>
      rw [hval] at h
      cases hr : f pv with
      | error e => simp only [hr] at h; exact Except.noConfusion h
      | ok r =>
          simp only [hr, ite_self] at h
          obtain ⟨t', hset, hst, htr⟩ := commitAndNotify_ok h
          refine ⟨t', hset, hst, Or.inr ⟨f, r, rfl, hr, ?_⟩⟩
          simpa using htr

/-- Full characterization of a successful `setValue`: the committed
value is the (single-application) transform output, the state tree is
updated exactly at the path, and the trace is transform call, optional
validator call, commit, then one notification per subscriber. -/
theorem setValue_ok {A : Type} {st : Store A} {path : String} {v : JVal A}
    {st' : Store A} {tr : List (Event A)}
    (h : setValue st path v = .ok (st', tr)) :
    ∃ pv t', processedValue st path v = .ok pv ∧
      setNested st.state (splitPath path) pv = some t' ∧
      st' = { st with state := t' } ∧
      ∃ trv, ((validateAt st path = none ∧ trv = []) ∨
          (∃ f r, validateAt st path = some f ∧ f pv = .ok r ∧
            trv = [Event.callValidator path pv])) ∧
        tr = transformTrace st path v ++ trv ++ [Event.commit path pv] ++
          ((subsAt st path).map fun cb => Event.notify cb pv path) := by
  unfold setValue at h
  cases hT : transformAt st path with
  | none =>
      rw [hT] at h
      obtain ⟨t', hset, hst, hcase⟩ := setValueAfterTransform_ok h
      refine ⟨v, t', by simp [processedValue, hT], hset, hst, ?_⟩
      rcases hcase with ⟨hval, htr⟩ | ⟨f, r, hval, hr, htr⟩
      · exact ⟨[], Or.inl ⟨hval, rfl⟩, by simpa [transformTrace, hT] using htr⟩
      · exact ⟨[Event.callValidator path v], Or.inr ⟨f, r, hval, hr, rfl⟩,
          by simpa [transformTrace, hT] using htr⟩
  | some t =>
      rw [hT] at h
      cases htv : t v with
      | error e => simp only [htv] at h; exact Except.noConfusion h
      | ok pv =>
          simp only [htv] at h
          obtain ⟨t', hset, hst, hcase⟩ := setValueAfterTransform_ok h
          refine ⟨pv, t', by simp [processedValue, hT, htv], hset, hst, ?_⟩
          rcases hcase with ⟨hval, htr⟩ | ⟨f, r, hval, hr, htr⟩
          · exact ⟨[], Or.inl ⟨hval, rfl⟩, by simpa [transformTrace, hT] using htr⟩
          · exact ⟨[Event.callValidator path pv], Or.inr ⟨f, r, hval, hr, rfl⟩,
              by simpa [transformTrace, hT] using htr⟩

-- ### Trace bookkeeping lemmas

theorem filter_isTransformCall_map_notify {A : Type} (l : List Nat) (pv : JVal A)
    (P : String) :
    (l.map fun cb => Event.notify cb pv P).filter Event.isTransformCall = [] := by
  induction l with
  | nil => rfl
  | cons c l ih => simp [List.filter_cons, Event.isTransformCall, ih]

theorem filter_isValidatorCall_map_notify {A : Type} (l : List Nat) (pv : JVal A)
    (P : String) :
    (l.map fun cb => Event.notify cb pv P).filter Event.isValidatorCall = [] := by
  induction l with
  | nil => rfl
  | cons c l ih => simp [List.filter_cons, Event.isValidatorCall, ih]

theorem filter_isNotifyTo_map_notify {A : Type} (l : List Nat) (s : Nat) (pv : JVal A)
    (P : String) :
    (l.map fun cb => Event.notify cb pv P).filter (Event.isNotifyTo s) =
      (l.filter fun c => c == s).map fun cb => Event.notify cb pv P := by
  induction l with
  | nil => rfl
  | cons c l ih =>
      by_cases hc : c == s <;>
        simp [List.filter_cons, Event.isNotifyTo, hc, ih]

-- ### Claim theorems

/-- Claim C1: after a successful `setValue(P, V)`, `getValue(P)` returns
`V` when no transform is configured for `P`, and returns the transform's
output with the transform applied exactly once (one transform call in
the trace, and the stored value is that single application's result)
when a transform is configured. -/
theorem setValue_then_getValue {A : Type} (st st' : Store A) (P : String) (V : JVal A)
    (tr : List (Event A)) (h : setValue st P V = .ok (st', tr)) :
    (transformAt st P = none → getValue st' P = V) ∧
    (∀ T, transformAt st P = some T →
      ∃ tv, T V = .ok tv ∧ getValue st' P = tv ∧ countTransformCalls tr = 1) := by
  obtain ⟨pv, t', hpv, hset, hst, trv, hcase, htr⟩ := setValue_ok h
  constructor
  · intro hT
    have hv : V = pv := by simpa [processedValue, hT] using hpv
    subst hv
    rw [hst]
    exact getNested_setNested _ _ _ _ hset
  · intro T hT
    have hpv' : T V = .ok pv := by simpa [processedValue, hT] using hpv
    refine ⟨pv, hpv', ?_, ?_⟩
    · rw [hst]
      exact getNested_setNested _ _ _ _ hset
    · subst htr
      rcases hcase with ⟨hval, rfl⟩ | ⟨f, r, hval, hr, rfl⟩ <;>
        simp [countTransformCalls, List.filter_append, transformTrace, hT,
          Event.isTransformCall, List.filter_cons,
          filter_isTransformCall_map_notify]

/-- The transform used by the C1 witness store. -/
def c1T : JVal Nat → Except JsErr (JVal Nat) := fun _ => .ok (.atom 7)

def c1Store : Store Nat :=
  { state := .obj []
    subscribers := fun _ => []
    configs := fun p => if p = "x" then some { transform := some c1T } else none }

def c1Store' : Store Nat := { c1Store with state := .obj [("x", .atom 7)] }

def c1Trace : List (Event Nat) :=
  [.callTransform "x" (.atom 3), .commit "x" (.atom 7)]

/-- Witness for C1 at the concrete store `c1Store`, writing `atom 3`
through the transform `c1T` at path `"x"`. -/
theorem setValue_then_getValue_witness :
    ∃ tv, c1T (JVal.atom 3) = .ok tv ∧ getValue c1Store' "x" = tv ∧
      countTransformCalls c1Trace = 1 :=
  (setValue_then_getValue c1Store c1Store' "x" (JVal.atom 3) c1Trace rfl).2 c1T rfl

/-- Helper for C2/C3: once the transform stage has produced `pv`, a
configured validator returning any (possibly failing) result leads to
the same commit and the same notifications. -/
theorem setValueAfterTransform_commits {A : Type} {st : Store A} {P : String}
    {pv : JVal A} {f : JVal A → Except JsErr VResult} {r : VResult} {t' : JVal A}
    (hf : validateAt st P = some f) (hr : f pv = .ok r)
    (hset : setNested st.state (splitPath P) pv = some t') (tr0 : List (Event A)) :
    setValueAfterTransform st P pv tr0 =
      .ok ({ st with state := t' },
        tr0 ++ [Event.callValidator P pv, Event.commit P pv] ++
          (subsAt st P).map fun cb => Event.notify cb pv P) := by
  simp only [setValueAfterTransform, hf, hr, ite_self, commitAndNotify, hset]
  simp

/-- Claim C2: a write whose (possibly transformed) value fails the
configured validator is still committed into the state tree and still
notifies the path's subscribers exactly as a valid value would (same
commit, same notification list, not depending on the verdict `r`). -/
theorem invalid_value_still_committed_and_notified {A : Type} (st : Store A)
    (P : String) (V pv : JVal A) (f : JVal A → Except JsErr VResult) (r : VResult)
    (t' : JVal A)
    (hpv : processedValue st P V = .ok pv)
    (hf : validateAt st P = some f)
    (hr : f pv = .ok r)
    (_hfail : r ≠ VResult.bool true)
    (hset : setNested st.state (splitPath P) pv = some t') :
    setValue st P V =
      .ok ({ st with state := t' },
        transformTrace st P V ++ [Event.callValidator P pv, Event.commit P pv] ++
          (subsAt st P).map fun cb => Event.notify cb pv P) ∧
    getValue { st with state := t' } P = pv := by
  refine ⟨?_, getNested_setNested _ _ _ _ hset⟩
  cases hT : transformAt st P with
  | none =>
      have hv : V = pv := by simpa [processedValue, hT] using hpv
      subst hv
      simp only [setValue, hT, transformTrace]
      simpa using setValueAfterTransform_commits hf hr hset []
  | some T =>
      have htv : T V = .ok pv := by simpa [processedValue, hT] using hpv
      simp only [setValue, hT, htv, transformTrace]
      simpa using setValueAfterTransform_commits hf hr hset [Event.callTransform P V]

/-- The failing validator used by the C2 witness store. -/
def c2V : JVal Nat → Except JsErr VResult := fun _ => .ok (.msg "This field is required")

def c2Store : Store Nat :=
  { state := .obj []
    subscribers := fun p => if p = "x" then [4] else []
    configs := fun p => if p = "x" then some { validate := some c2V } else none }

/-- Witness for C2: at `c2Store`, writing `atom 5` at `"x"` fails the
validator yet is committed and notified to subscriber 4. -/
theorem invalid_value_still_committed_and_notified_witness :
    setValue c2Store "x" (.atom 5) =
      .ok ({ c2Store with state := .obj [("x", .atom 5)] },
        transformTrace c2Store "x" (.atom 5) ++
          [Event.callValidator "x" (.atom 5), Event.commit "x" (.atom 5)] ++
          (subsAt c2Store "x").map fun cb => Event.notify cb (.atom 5) "x") ∧
    getValue { c2Store with state := .obj [("x", .atom 5)] } "x" = .atom 5 :=
  invalid_value_still_committed_and_notified c2Store "x" (.atom 5) (.atom 5) c2V
    (.msg "This field is required") (.obj [("x", .atom 5)]) rfl rfl rfl
    (by decide) rfl

/-- The throwing validator used by the C3 counterexample store. -/
def c3V : JVal Nat → Except JsErr VResult := fun _ => .error (.thrown "boom")

def c3Store : Store Nat :=
  { state := .obj []
    subscribers := fun _ => []
    configs := fun p => if p = "x" then some { validate := some c3V } else none }

/-- Counterexample to C3 as stated: with validator `c3V` configured at
`"x"`, `setValue` evaluates the validator during the write, so the
validator's throw propagates out of `setValue` itself (the claim said
`setValue` never invokes the validator and cannot throw because of
it). -/
theorem throwing_validator_aborts_setValue :
    setValue c3Store "x" (.atom 1) = .error (.thrown "boom") := rfl

/-- Claim C3 (amended): `setValue` does invoke the configured validator
during the write, exactly once, on the transformed value, although the
verdict does not affect the commit; consequently a throwing validator
causes `setValue` itself to throw (the validator is additionally
evaluated on each read of `isValid`/`error`). -/
theorem setValue_invokes_validator {A : Type} (st : Store A) (P : String)
    (V pv : JVal A) (f : JVal A → Except JsErr VResult)
    (hpv : processedValue st P V = .ok pv)
    (hf : validateAt st P = some f) :
    (∀ e, f pv = .error e → setValue st P V = .error e) ∧
    (∀ st' tr, setValue st P V = .ok (st', tr) → countValidatorCalls tr = 1) := by
  constructor
  · intro e he
    cases hT : transformAt st P with
    | none =>
        have hv : V = pv := by simpa [processedValue, hT] using hpv
        subst hv
        simp only [setValue, hT, setValueAfterTransform, hf, he]
    | some T =>
        have htv : T V = .ok pv := by simpa [processedValue, hT] using hpv
        simp only [setValue, hT, htv, setValueAfterTransform, hf, he]
  · intro st' tr h
    obtain ⟨pv2, t', hpv2, hset, hst, trv, hcase, htr⟩ := setValue_ok h
    rcases hcase with ⟨hnone, _⟩ | ⟨f2, r, hsome, hr, rfl⟩
    · rw [hf] at hnone; exact Option.noConfusion hnone
    · subst htr
      cases hT : transformAt st P with
      | none =>
          simp [countValidatorCalls, List.filter_append, transformTrace, hT,
            Event.isValidatorCall, List.filter_cons,
            filter_isValidatorCall_map_notify]
      | some T =>
          simp [countValidatorCalls, List.filter_append, transformTrace, hT,
            Event.isValidatorCall, List.filter_cons,
            filter_isValidatorCall_map_notify]

/-- The returning validator used by the C3 witness store. -/
def c3W : JVal Nat → Except JsErr VResult := fun _ => .ok (.bool true)

def c3WStore : Store Nat :=
  { state := .obj []
    subscribers := fun p => if p = "y" then [9] else []
    configs := fun p => if p = "y" then some { validate := some c3W } else none }

/-- Witness for the amended C3: a successful write through `c3WStore`
leaves exactly one validator call in its trace. -/
theorem setValue_invokes_validator_witness :
    countValidatorCalls
      ([Event.callValidator "y" (JVal.atom 2), Event.commit "y" (JVal.atom 2),
        Event.notify 9 (JVal.atom 2) "y"] : List (Event Nat)) = 1 :=
  (setValue_invokes_validator c3WStore "y" (.atom 2) (.atom 2) c3W rfl rfl).2
    { c3WStore with state := .obj [("y", .atom 2)] } _ rfl

-- ### Subscription lemmas

theorem subscribeS_configs {A : Type} (st : Store A) (P : String) (cb : Nat) :
    (subscribeS st P cb).configs = st.configs := by
  simp only [subscribeS]
  split <;> rfl

theorem subsAt_subscribeS_self {A : Type} (st : Store A) (P : String) (cb : Nat) :
    subsAt (subscribeS st P cb) P =
      if cb ∈ subsAt st P then subsAt st P else subsAt st P ++ [cb] := by
  simp only [subscribeS, subsAt]
  split <;> simp [fupdate]

theorem subsAt_unsubscribeS_self {A : Type} (st : Store A) (P : String) (cb : Nat) :
    subsAt (unsubscribeS st P cb) P = (subsAt st P).filter fun c => c ≠ cb := by
  simp [unsubscribeS, subsAt, fupdate]

theorem processedValue_subscribeS {A : Type} (st : Store A) (P Q : String) (cb : Nat)
    (V : JVal A) : processedValue (subscribeS st P cb) Q V = processedValue st Q V := by
  simp [processedValue, transformAt, subscribeS_configs]

theorem filter_isNotify_map_notify {A : Type} (l : List Nat) (pv : JVal A)
    (P : String) :
    (l.map fun cb => Event.notify cb pv P).filter Event.isNotify =
      l.map fun cb => Event.notify cb pv P := by
  induction l with
  | nil => rfl
  | cons c l ih => simp [List.filter_cons, Event.isNotify, ih]

theorem filter_ne_filter_beq (s : Nat) (l : List Nat) :
    ((l.filter fun c => c ≠ s).filter fun c => c == s) = [] := by
  induction l with
  | nil => rfl
  | cons a l ih => by_cases h : a = s <;> simp [List.filter_cons, h, ih]

/-- Structural form of every successful `setValue` trace: an initial
segment without notifications, then the commit, then exactly the
subscriber notifications carrying the committed value and path. -/
theorem setValue_trace_shape {A : Type} {st : Store A} {P : String} {V : JVal A}
    {st' : Store A} {tr : List (Event A)}
    (h : setValue st P V = .ok (st', tr)) :
    ∃ pv l1, processedValue st P V = .ok pv ∧ getValue st' P = pv ∧
      tr = l1 ++ [Event.commit P pv] ++
        ((subsAt st P).map fun cb => Event.notify cb pv P) ∧
      l1.filter Event.isNotify = [] ∧
      ∀ s, l1.filter (Event.isNotifyTo s) = [] := by
  obtain ⟨pv, t', hpv, hset, hst, trv, hcase, htr⟩ := setValue_ok h
  have hget : getValue st' P = pv := by
    rw [hst]; exact getNested_setNested _ _ _ _ hset
  refine ⟨pv, transformTrace st P V ++ trv, hpv, hget, by simp [htr], ?_, ?_⟩
  · rcases hcase with ⟨_, rfl⟩ | ⟨f, r, _, _, rfl⟩ <;>
      cases hT : transformAt st P <;>
        simp [transformTrace, hT, List.filter_append, List.filter_cons,
          Event.isNotify]
  · intro s
    rcases hcase with ⟨_, rfl⟩ | ⟨f, r, _, _, rfl⟩ <;>
      cases hT : transformAt st P <;>
        simp [transformTrace, hT, List.filter_append, List.filter_cons,
          Event.isNotifyTo]

/-- Claim C4: after `subscribe(P, S)`, one successful `setValue(P, V)`
notifies `S` exactly once, with the committed (post-transform) value
and `P` as arguments, and only after the commit of that value into the
tree; after running the returned unsubscribe operation, a further
`setValue(P, V)` notifies `S` zero times.  (`hnd` is the `Set`
invariant: the subscriber list of `P` holds no duplicates.) -/
theorem subscribe_then_setValue_notifies_once {A : Type} (st : Store A) (P : String)
    (S : Nat) (V : JVal A) (st2 : Store A) (tr : List (Event A))
    (hnd : (subsAt st P).Nodup)
    (h : setValue (subscribeS st P S) P V = .ok (st2, tr)) :
    ∃ pv, processedValue st P V = .ok pv ∧ getValue st2 P = pv ∧
      countNotifyTo S tr = 1 ∧
      (∃ l1 l2, tr = l1 ++ [Event.commit P pv] ++ l2 ∧
        l1.filter Event.isNotify = [] ∧
        Event.notify S pv P ∈ l2 ∧
        (∀ e ∈ l2, ∃ cb, e = Event.notify cb pv P)) ∧
      ∀ st3 tr', setValue (unsubscribeS (subscribeS st P S) P S) P V = .ok (st3, tr') →
        countNotifyTo S tr' = 0 := by
  obtain ⟨pv, l1, hpv1, hget, htr, hl1, hl1s⟩ := setValue_trace_shape h
  have hpv : processedValue st P V = .ok pv := by
    rw [← processedValue_subscribeS st P P S V]; exact hpv1
  have hsubs : subsAt (subscribeS st P S) P =
      if S ∈ subsAt st P then subsAt st P else subsAt st P ++ [S] :=
    subsAt_subscribeS_self st P S
  have hmem : S ∈ subsAt (subscribeS st P S) P := by
    rw [hsubs]; split <;> simp_all
  have hnd1 : (subsAt (subscribeS st P S) P).Nodup := by
    rw [hsubs]; split
    · exact hnd
    · rw [List.nodup_append]
      refine ⟨hnd, List.nodup_singleton S, ?_⟩
      intro a ha hb
      simp only [List.mem_singleton] at hb
      subst hb
      simp_all
  have hcount : (subsAt (subscribeS st P S) P).count S = 1 :=
    List.count_eq_one_of_mem hnd1 hmem
  refine ⟨pv, hpv, hget, ?_, ?_, ?_⟩
  · rw [htr]
    unfold countNotifyTo
    rw [List.filter_append, List.filter_append, filter_isNotifyTo_map_notify]
    rw [hl1s S]
    simp only [List.filter_cons, Event.isNotifyTo, List.filter_nil,
      List.nil_append, List.length_append, List.length_map]
    have hlen : ((subsAt (subscribeS st P S) P).filter fun c => c == S).length =
        (subsAt (subscribeS st P S) P).count S :=
      (List.countP_eq_length_filter _ _).symm
    simp [hlen, hcount]
  · refine ⟨l1, _, htr, hl1, ?_, ?_⟩
    · exact List.mem_map.mpr ⟨S, hmem, rfl⟩
    · intro e he
      obtain ⟨cb, _, rfl⟩ := List.mem_map.mp he
      exact ⟨cb, rfl⟩
  · intro st3 tr' h3
    obtain ⟨pv', l1', _, _, htr', _, hl1s'⟩ := setValue_trace_shape h3
    rw [htr']
    unfold countNotifyTo
    rw [List.filter_append, List.filter_append, filter_isNotifyTo_map_notify]
    rw [hl1s' S, subsAt_unsubscribeS_self, filter_ne_filter_beq]
    simp [List.filter_cons, Event.isNotifyTo]

def c4Store : Store Nat :=
  { state := .obj [], subscribers := fun _ => [], configs := fun _ => none }

def c4Trace : List (Event Nat) :=
  [.commit "x" (.atom 2), .notify 5 (.atom 2) "x"]

/-- Witness for C4: subscriber 5 on `"x"` of the empty store is
notified exactly once by a write of `atom 2`, and not at all after
unsubscribing. -/
theorem subscribe_then_setValue_notifies_once_witness :
    ∃ pv, processedValue c4Store "x" (JVal.atom 2) = .ok pv ∧
      getValue { subscribeS c4Store "x" 5 with
        state := JVal.obj [("x", JVal.atom 2)] } "x" = pv ∧
      countNotifyTo 5 c4Trace = 1 ∧
      (∃ l1 l2, c4Trace = l1 ++ [Event.commit "x" pv] ++ l2 ∧
        l1.filter Event.isNotify = [] ∧
        Event.notify 5 pv "x" ∈ l2 ∧
        (∀ e ∈ l2, ∃ cb, e = Event.notify cb pv "x")) ∧
      ∀ st3 tr',
        setValue (unsubscribeS (subscribeS c4Store "x" 5) "x" 5) "x" (JVal.atom 2) =
          .ok (st3, tr') →
        countNotifyTo 5 tr' = 0 :=
  subscribe_then_setValue_notifies_once c4Store "x" 5 (JVal.atom 2) _ c4Trace
    List.nodup_nil rfl

-- ### Input adapter (packages/react/src/index.ts)

/-- Platform classes produced by `detectPlatform` (index.ts 41-51). -/
inductive Platform where
  | desktop | android | ios | otherP
deriving DecidableEq, Repr

/-- Input kinds distinguished by the handlers' `target.type` checks;
`text` stands for every type other than checkbox/radio/number
(text, textarea, select, ...). -/
inductive TargetKind where
  | checkbox | radio | number | text
deriving DecidableEq, Repr

/-- The slice of an event's `target` that the handlers read:
`hasSelection` models the `'selectionStart' in target` feature test. -/
structure Target where
  kind : TargetKind
  value : String
  checked : Bool
  hasSelection : Bool
  selStart : Option Int
  selEnd : Option Int
deriving DecidableEq, Repr

/-- Model of `InputContext` (index.ts 28-36). -/
structure InputCtx where
  isComposing : Bool
  lastValue : String
  selectionStart : Option Int
  selectionEnd : Option Int
  platform : Platform
  touched : Bool
  submitAttempted : Bool
deriving DecidableEq, Repr

/-- A value handed to `binding.setValue` by the adapter: boolean for
checkboxes, string for text-like inputs, `n` for numeric fields.  The
numeric type `N` is abstract; `parseFloat` is modelled by a parameter
`parse : String → Option N` (`none` for NaN) together with the numeric
zero used as the parse-failure default. -/
inductive DomVal (N : Type) where
  | b : Bool → DomVal N
  | s : String → DomVal N
  | n : N → DomVal N
deriving DecidableEq, Repr

/-- Model of `shouldIgnoreComposition` (index.ts 136-154): no suppression for
targets without selection support; Android suppresses exactly an
unchanged raw value while composing; iOS never suppresses; desktop —
and any platform not matched earlier, i.e. the unclassified 'other'
class — falls through to the default `return context.isComposing`. -/
def shouldIgnoreComposition (ctx : InputCtx) (t : Target) : Bool :=
  if !t.hasSelection then false
  else
    match ctx.platform with
    | .android => ctx.isComposing && t.value == ctx.lastValue
    | .ios => false
    | _ => ctx.isComposing

/-- Model of `handleChange` (index.ts 126-183): mark touched, apply the
composition-suppression rule, derive the semantic value from the
target kind, record selection offsets and last-seen text for text-like
targets, and (unless suppressed) emit one `setValue`.  `cur` is
`binding.value`, used by the unchecked-radio branch. -/
def handleChange {N : Type} (parse : String → Option N) (zero : N)
    (ctx : InputCtx) (cur : DomVal N) (t : Target) :
    InputCtx × Option (DomVal N) :=
  let ctx1 := { ctx with touched := true }
  if shouldIgnoreComposition ctx1 t then (ctx1, none)
  else
    let newValue : DomVal N :=
      match t.kind with
      | .checkbox => .b t.checked
      | .radio => if t.checked then .s t.value else cur
      | .number => .n ((parse t.value).getD zero)
      | .text => .s t.value
    let ctx2 :=
      if t.hasSelection then
        { ctx1 with
          selectionStart := t.selStart
          selectionEnd := t.selEnd
          lastValue := t.value }
      else ctx1
    (ctx2, some newValue)

/-- Model of `handleCompositionStart` (index.ts 185-192). -/
def handleCompositionStart (ctx : InputCtx) (t : Target) : InputCtx :=
  { ctx with isComposing := true, lastValue := t.value }

/-- Model of `handleCompositionEnd` (index.ts 194-209): leave the composing
state, then unconditionally emit one `setValue` with the final text
(`parseFloat(v) || 0` on numeric fields: NaN — and an actual parsed
zero, which coincides — become the numeric zero). -/
def handleCompositionEnd {N : Type} (parse : String → Option N) (zero : N)
    (ctx : InputCtx) (t : Target) : InputCtx × List (DomVal N) :=
  let ctx1 := { ctx with isComposing := false }
  let finalValue : DomVal N :=
    if t.kind = .number then .n ((parse t.value).getD zero) else .s t.value
  let ctx2 := { ctx1 with lastValue := t.value }
  (ctx2, [finalValue])

/-- Model of `handleInput` (index.ts 212-233): mark touched; outside composition
derive the value (`parseFloat(v) || 0` for numeric fields) and write it
through only when it differs from the last-seen value — a numeric value
is never strictly equal to the string `lastValue`, so numeric fields
always pass the check. -/
def handleInput {N : Type} (parse : String → Option N) (zero : N)
    (ctx : InputCtx) (t : Target) : InputCtx × Option (DomVal N) :=
  let ctx1 := { ctx with touched := true }
  if ctx1.isComposing then (ctx1, none)
  else
    let newValue : DomVal N :=
      if t.kind = .number then .n ((parse t.value).getD zero) else .s t.value
    let changed : Bool :=
      match newValue with
      | .s v => v != ctx1.lastValue
      | _ => true
    if changed then ({ ctx1 with lastValue := t.value }, some newValue)
    else (ctx1, none)

/-- Model of `handleFocus` (index.ts 236-241). -/
def handleFocus (ctx : InputCtx) : InputCtx := { ctx with touched := true }

/-- Model of `handleBlur` (index.ts 244-247). -/
def handleBlur (ctx : InputCtx) : InputCtx := { ctx with touched := true }

/-- Model of `markSubmitAttempted` (index.ts 250-252). -/
def markSubmitAttempted (ctx : InputCtx) : InputCtx :=
  { ctx with submitAttempted := true }

/-- Claim C5 (amended): for a text-like target (selection-capable)
while composing, a raw change event is suppressed unconditionally on
desktop-class platforms AND on unclassified ('other') platforms — both
reach the default branch of `shouldIgnoreComposition` — is suppressed
on Android-class platforms iff the raw text equals the last-seen
value, and is never suppressed on iOS-class platforms. -/
theorem composition_suppression_by_platform {N : Type} (parse : String → Option N)
    (zero : N) (ctx : InputCtx) (cur : DomVal N) (t : Target)
    (hcomp : ctx.isComposing = true) (hsel : t.hasSelection = true) :
    (ctx.platform = .desktop → (handleChange parse zero ctx cur t).2 = none) ∧
    (ctx.platform = .android →
      ((handleChange parse zero ctx cur t).2 = none ↔ t.value = ctx.lastValue)) ∧
    (ctx.platform = .ios → ∃ v, (handleChange parse zero ctx cur t).2 = some v) ∧
    (ctx.platform = .otherP → (handleChange parse zero ctx cur t).2 = none) := by
  refine ⟨?_, ?_, ?_, ?_⟩ <;> intro hplat
  · simp [handleChange, shouldIgnoreComposition, hplat, hcomp, hsel]
  · by_cases hv : t.value = ctx.lastValue <;>
      simp [handleChange, shouldIgnoreComposition, hplat, hcomp, hsel, hv]
  · simp [handleChange, shouldIgnoreComposition, hplat, hcomp, hsel]
  · simp [handleChange, shouldIgnoreComposition, hplat, hcomp, hsel]

def c5Ctx : InputCtx :=
  { isComposing := true
    lastValue := "a"
    selectionStart := none
    selectionEnd := none
    platform := .otherP
    touched := false
    submitAttempted := false }

def c5Target : Target :=
  { kind := .text
    value := "ab"
    checked := false
    hasSelection := true
    selStart := some 2
    selEnd := some 2 }

/-- Counterexample to C5 as stated: on an unclassified ('other')
platform, a change event during composition whose text has changed
("ab" vs last-seen "a") is nevertheless suppressed (no `setValue`):
the unmatched-platform case falls into the same default branch as
desktop, contradicting "on unclassified platforms it is never
suppressed and always writes through". -/
theorem other_platform_suppresses_while_composing :
    (handleChange (fun _ => (none : Option Nat)) 0 c5Ctx (DomVal.s "a") c5Target).2 =
      none := rfl

def c5dCtx : InputCtx := { c5Ctx with platform := .desktop }

/-- Witness for the amended C5 at a concrete desktop-class context. -/
theorem composition_suppression_by_platform_witness :
    (c5dCtx.platform = .desktop →
      (handleChange (fun _ => (none : Option Nat)) 0 c5dCtx (DomVal.s "a")
        c5Target).2 = none) ∧
    (c5dCtx.platform = .android →
      ((handleChange (fun _ => (none : Option Nat)) 0 c5dCtx (DomVal.s "a")
        c5Target).2 = none ↔ c5Target.value = c5dCtx.lastValue)) ∧
    (c5dCtx.platform = .ios →
      ∃ v, (handleChange (fun _ => (none : Option Nat)) 0 c5dCtx (DomVal.s "a")
        c5Target).2 = some v) ∧
    (c5dCtx.platform = .otherP →
      (handleChange (fun _ => (none : Option Nat)) 0 c5dCtx (DomVal.s "a")
        c5Target).2 = none) :=
  composition_suppression_by_platform (fun _ => (none : Option Nat)) 0 c5dCtx
    (DomVal.s "a") c5Target rfl rfl

/-- Claim C6: `compositionend` always exits the composing state and
issues exactly one `setValue` carrying the final observed text — with
numeric coercion and zero default on parse failure for numeric fields
— independent of the platform, of `isComposing`, and of whatever
suppression applied during the composition (the handler reads none of
those). -/
theorem compositionEnd_commits_final_text {N : Type} (parse : String → Option N)
    (zero : N) (ctx : InputCtx) (t : Target) :
    (handleCompositionEnd parse zero ctx t).1.isComposing = false ∧
    (handleCompositionEnd parse zero ctx t).2.length = 1 ∧
    (t.kind ≠ .number →
      (handleCompositionEnd parse zero ctx t).2 = [DomVal.s t.value]) ∧
    (t.kind = .number →
      (handleCompositionEnd parse zero ctx t).2 =
        [DomVal.n ((parse t.value).getD zero)]) ∧
    (t.kind = .number → parse t.value = none →
      (handleCompositionEnd parse zero ctx t).2 = [DomVal.n zero]) := by
  refine ⟨rfl, ?_, ?_, ?_, ?_⟩
  · by_cases hk : t.kind = .number <;> simp [handleCompositionEnd, hk]
  · intro hk; simp [handleCompositionEnd, hk]
  · intro hk; simp [handleCompositionEnd, hk]
  · intro hk hp; simp [handleCompositionEnd, hk, hp]

def c6Target : Target :=
  { kind := .number
    value := "abc"
    checked := false
    hasSelection := true
    selStart := some 3
    selEnd := some 3 }

/-- Witness for C6: a numeric field whose final text does not parse
commits the numeric zero. -/
theorem compositionEnd_commits_final_text_witness :
    (handleCompositionEnd (fun _ => (none : Option Nat)) 0 c5Ctx c6Target).1.isComposing
        = false ∧
    (handleCompositionEnd (fun _ => (none : Option Nat)) 0 c5Ctx c6Target).2.length
        = 1 ∧
    (c6Target.kind ≠ .number →
      (handleCompositionEnd (fun _ => (none : Option Nat)) 0 c5Ctx c6Target).2 =
        [DomVal.s c6Target.value]) ∧
    (c6Target.kind = .number →
      (handleCompositionEnd (fun _ => (none : Option Nat)) 0 c5Ctx c6Target).2 =
        [DomVal.n (((fun _ => (none : Option Nat)) c6Target.value).getD 0)]) ∧
    (c6Target.kind = .number → (fun _ => (none : Option Nat)) c6Target.value = none →
      (handleCompositionEnd (fun _ => (none : Option Nat)) 0 c5Ctx c6Target).2 =
        [DomVal.n 0]) :=
  compositionEnd_commits_final_text (fun _ => (none : Option Nat)) 0 c5Ctx c6Target

theorem handleChange_touched {N : Type} (parse : String → Option N) (zero : N)
    (ctx : InputCtx) (cur : DomVal N) (t : Target) :
    (handleChange parse zero ctx cur t).1.touched = true := by
  simp only [handleChange]
  simp [apply_ite (fun p : InputCtx × Option (DomVal N) => p.1.touched),
    apply_ite (fun c : InputCtx => c.touched)]

theorem handleChange_submitAttempted {N : Type} (parse : String → Option N) (zero : N)
    (ctx : InputCtx) (cur : DomVal N) (t : Target) :
    (handleChange parse zero ctx cur t).1.submitAttempted = ctx.submitAttempted := by
  simp only [handleChange]
  simp [apply_ite (fun p : InputCtx × Option (DomVal N) => p.1.submitAttempted),
    apply_ite (fun c : InputCtx => c.submitAttempted)]

theorem handleInput_touched {N : Type} (parse : String → Option N) (zero : N)
    (ctx : InputCtx) (t : Target) :
    (handleInput parse zero ctx t).1.touched = true := by
  simp only [handleInput]
  simp [apply_ite (fun p : InputCtx × Option (DomVal N) => p.1.touched),
    apply_ite (fun c : InputCtx => c.touched)]

theorem handleInput_submitAttempted {N : Type} (parse : String → Option N) (zero : N)
    (ctx : InputCtx) (t : Target) :
    (handleInput parse zero ctx t).1.submitAttempted = ctx.submitAttempted := by
  simp only [handleInput]
  simp [apply_ite (fun p : InputCtx × Option (DomVal N) => p.1.submitAttempted),
    apply_ite (fun c : InputCtx => c.submitAttempted)]

/-- Claim C9: every adapter event handler is monotone in the `touched`
and `submitAttempted` flags — each handler either leaves each flag
unchanged or raises it from `false` to `true`, and no handler ever
resets either flag (`≤` is the Boolean order `false < true`). -/
theorem adapter_flags_monotone {N : Type} (parse : String → Option N) (zero : N)
    (ctx : InputCtx) (cur : DomVal N) (t : Target) :
    (ctx.touched ≤ (handleChange parse zero ctx cur t).1.touched ∧
      ctx.submitAttempted ≤ (handleChange parse zero ctx cur t).1.submitAttempted) ∧
    (ctx.touched ≤ (handleInput parse zero ctx t).1.touched ∧
      ctx.submitAttempted ≤ (handleInput parse zero ctx t).1.submitAttempted) ∧
    (ctx.touched ≤ (handleFocus ctx).touched ∧
      ctx.submitAttempted ≤ (handleFocus ctx).submitAttempted) ∧
    (ctx.touched ≤ (handleBlur ctx).touched ∧
      ctx.submitAttempted ≤ (handleBlur ctx).submitAttempted) ∧
    (ctx.touched ≤ (markSubmitAttempted ctx).touched ∧
      ctx.submitAttempted ≤ (markSubmitAttempted ctx).submitAttempted) ∧
    (ctx.touched ≤ (handleCompositionStart ctx t).touched ∧
      ctx.submitAttempted ≤ (handleCompositionStart ctx t).submitAttempted) ∧
    (ctx.touched ≤ (handleCompositionEnd parse zero ctx t).1.touched ∧
      ctx.submitAttempted ≤ (handleCompositionEnd parse zero ctx t).1.submitAttempted) := by
  refine ⟨⟨?_, ?_⟩, ⟨?_, ?_⟩, ⟨?_, ?_⟩, ⟨?_, ?_⟩, ⟨?_, ?_⟩, ⟨?_, ?_⟩, ⟨?_, ?_⟩⟩
  · rw [handleChange_touched]; exact Bool.le_true _
  · rw [handleChange_submitAttempted]
  · rw [handleInput_touched]; exact Bool.le_true _
  · rw [handleInput_submitAttempted]
  · exact Bool.le_true _
  · exact le_refl _
  · exact Bool.le_true _
  · exact le_refl _
  · exact le_refl _
  · exact Bool.le_true _
  · exact le_refl _
  · exact le_refl _
  · exact le_refl _
  · exact le_refl _

/-- Claim C7 (amended): `transform(f)` on a binding at path `P` binds
and returns a new binding at the derived path `P ++ "_transformed"`
whose config's transform is `f` alone — the parent config's transform
is NOT composed in — with no validator; writing `V` through the
derived binding therefore stores `f(V)` (not `f(parentTransform(V))`). -/
theorem transformB_spec {A : Type} (st st1 : Store A) (b d : BindingR A)
    (f : JVal A → Except JsErr (JVal A))
    (hb : transformB st b f = (st1, d)) :
    d.path = b.path ++ "_transformed" ∧
    d.config.transform = some (fun val => f val) ∧
    d.config.validate = none ∧
    st1.configs d.path = some d.config ∧
    ∀ V fv t', f V = .ok fv →
      setNested st1.state (splitPath d.path) fv = some t' →
      setValue st1 d.path V =
        .ok ({ st1 with state := t' },
          [Event.callTransform d.path V, Event.commit d.path fv] ++
            (subsAt st1 d.path).map fun cb => Event.notify cb fv d.path) := by
  simp only [transformB, bindB] at hb
  cases hb
  refine ⟨rfl, rfl, rfl, by simp [fupdate, transformedConfig], ?_⟩
  intro V fv t' hf hset
  have hT : transformAt { st with configs := fupdate st.configs (b.path ++ "_transformed") (some (transformedConfig b f)) } (b.path ++ "_transformed") = some fun val => f val := by
    simp [transformAt, fupdate, transformedConfig]
  have hV : validateAt { st with configs := fupdate st.configs (b.path ++ "_transformed") (some (transformedConfig b f)) } (b.path ++ "_transformed") = none := by
    simp [validateAt, fupdate, transformedConfig]
  simp only [setValue, hT, hf, setValueAfterTransform, hV, commitAndNotify, hset]
  simp

/-- Parent transform used by the C7 counterexample: stores `atom "G"`. -/
def c7G : JVal String → Except JsErr (JVal String) := fun _ => .ok (.atom "G")

/-- Derived transform used by the C7 counterexample: the identity. -/
def c7F : JVal String → Except JsErr (JVal String) := fun v => .ok v

def c7Store0 : Store String :=
  { state := .obj [], subscribers := fun _ => [], configs := fun _ => none }

def c7Bound : Store String × BindingR String :=
  bindB c7Store0 "p" { transform := some c7G }

def c7Derived : Store String × BindingR String :=
  transformB c7Bound.1 c7Bound.2 c7F

/-- Counterexample to C7 as stated: with parent transform `c7G` at
`"p"` and derived binding `transform(c7F)`, writing `atom "V"` through
the derived binding stores `c7F (atom "V") = atom "V"`, whereas the
claimed composition would store `c7F (c7G (atom "V")) = atom "G"` —
and those differ. -/
theorem transform_does_not_compose_parent :
    ∃ st3 tr gv fgv,
      setValue c7Derived.1 c7Derived.2.path (.atom "V") = .ok (st3, tr) ∧
      c7G (.atom "V") = .ok gv ∧
      c7F gv = .ok fgv ∧
      getValue st3 c7Derived.2.path = JVal.atom "V" ∧
      getValue st3 c7Derived.2.path ≠ fgv := by
  refine ⟨_, _, _, _, rfl, rfl, rfl, rfl, ?_⟩
  intro h
  injection h with h2
  exact absurd h2 (by decide)

/-- Witness for the amended C7 at the concrete derived binding
`c7Derived` (parent transform `c7G`, derived function `c7F`). -/
theorem transformB_spec_witness :
    c7Derived.2.path = c7Bound.2.path ++ "_transformed" ∧
    c7Derived.2.config.transform = some (fun val => c7F val) ∧
    c7Derived.2.config.validate = none ∧
    c7Derived.1.configs c7Derived.2.path = some c7Derived.2.config ∧
    ∀ V fv t', c7F V = .ok fv →
      setNested c7Derived.1.state (splitPath c7Derived.2.path) fv = some t' →
      setValue c7Derived.1 c7Derived.2.path V =
        .ok ({ c7Derived.1 with state := t' },
          [Event.callTransform c7Derived.2.path V,
            Event.commit c7Derived.2.path fv] ++
            (subsAt c7Derived.1 c7Derived.2.path).map
              fun cb => Event.notify cb fv c7Derived.2.path) :=
  transformB_spec c7Bound.1 c7Derived.1 c7Bound.2 c7Derived.2 c7F rfl

/-- Claim C10: a binding derived via `transform` carries no validator
in its config (the parent's validator is not carried over and none is
added), so against every store state its `isValid` reads `true` and
its `error` reads `undefined`. -/
theorem derived_binding_always_valid {A : Type} (st : Store A) (b : BindingR A)
    (f : JVal A → Except JsErr (JVal A)) :
    (transformB st b f).2.config.validate = none ∧
    ∀ st2 : Store A, isValidB st2 (transformB st b f).2 = .ok true ∧
      errorB st2 (transformB st b f).2 = .ok none :=
  ⟨rfl, fun _ => ⟨rfl, rfl⟩⟩

/-- Claim C8: `batch` is a pass-through with no batching effect — for
every updates callback it simply runs it on the store, and for a
sequence of writes the result is exactly that of performing the writes
directly: each write's commit and subscriber notifications appear
immediately in that write's own trace segment, nothing is deferred to
the end of the batch. -/
theorem batch_is_passthrough {A : Type} (st : Store A)
    (u : Store A → Except JsErr (Store A × List (Event A)))
    (p : String) (v : JVal A) (rest : List (String × JVal A)) :
    batch st u = u st ∧
    ∀ st' tr, batch st (runWrites ((p, v) :: rest)) = .ok (st', tr) →
      ∃ st1 tr1 tr2, setValue st p v = .ok (st1, tr1) ∧
        runWrites rest st1 = .ok (st', tr2) ∧ tr = tr1 ++ tr2 := by
  refine ⟨rfl, ?_⟩
  intro st' tr h
  simp only [batch, runWrites] at h
  split at h
  · exact Except.noConfusion h
  · next st1 tr1 heq =>
      split at h
      · exact Except.noConfusion h
      · next st2 tr2 heq2 =>
          cases h
          exact ⟨st1, tr1, tr2, heq, heq2, rfl⟩

def c8Store : Store Nat :=
  { state := .obj [], subscribers := fun _ => [], configs := fun _ => none }

def c8Store' : Store Nat :=
  { c8Store with state := .obj [("x", .atom 1), ("y", .atom 2)] }

def c8Trace : List (Event Nat) := [.commit "x" (.atom 1), .commit "y" (.atom 2)]

/-- Witness for C8: batching the two writes `x := 1; y := 2` on the
empty store produces exactly the sequential per-write traces. -/
theorem batch_is_passthrough_witness :
    ∃ st1 tr1 tr2, setValue c8Store "x" (JVal.atom 1) = .ok (st1, tr1) ∧
      runWrites [("y", JVal.atom 2)] st1 = .ok (c8Store', tr2) ∧
      c8Trace = tr1 ++ tr2 :=
  (batch_is_passthrough c8Store
      (runWrites [("x", JVal.atom 1), ("y", JVal.atom 2)]) "x" (JVal.atom 1)
      [("y", JVal.atom 2)]).2 c8Store' c8Trace rfl
